import Mathlib

/-!
Verification of the seesaw arbitrage core of `balancer-examples`:
`packages/seesaw/src/arbOpp.ts` and
`packages/seesaw/src/pools/weightedPool/weightedMath.ts`.

The TypeScript code computes over `Decimal` (arbitrary-precision decimal)
values; we embed `Decimal` as `ℝ` and `.pow` as `Real.rpow` (the `^`
notation below).  Method chains such as `a.mul(b).pow(c)` are translated
with the grouping the chain actually has, namely `(a * b) ^ c`, even where
the surrounding comments in the source suggest a different grouping was
intended.

The one relational comparison of two `Decimal` objects, the branch
condition `desiredSpotPrice > spotPrice` in `identifyArbitrageOpp`, is NOT
a numeric comparison in JavaScript: relational operators convert objects
with `valueOf()`, and decimal.js's `valueOf` returns the decimal string
form, so two `Decimal`s are compared lexicographically as strings
(`a > b` holds iff `b`'s string is lexicographically smaller than `a`'s).
The finite-precision string form of a computed `Decimal` is not determined
by its idealized real value, so the embedding of `identifyArbitrageOpp`
takes the rendering function `valueOf : ℝ → String` as a parameter and the
theorems instantiate or constrain it; `jsLtb` below is the JavaScript
lexicographic string order on the underlying character sequences.
-/

open Real

/-- Pool-type tag from `types.ts` (`enum PoolTypes`). -/
inductive PoolTypes where
  | Weighted
  | Stable
  | Element
  | MetaStable
  | Linear
deriving DecidableEq, Repr

/-- `WeightedPoolPairData` from `weightedPool.ts`: `PoolPairBase` plus the
two weights.  Field order: id, address, poolType, swapFee, tokenIn,
tokenOut, decimalsIn, decimalsOut, balanceIn, balanceOut, weightIn,
weightOut. -/
structure WeightedPoolPairData where
  id : String
  address : String
  poolType : PoolTypes
  swapFee : ℝ
  tokenIn : String
  tokenOut : String
  decimalsIn : ℕ
  decimalsOut : ℕ
  balanceIn : ℝ
  balanceOut : ℝ
  weightIn : ℝ
  weightOut : ℝ

/-- `PoolState` from `types.ts`.  The TypeScript arrays `tokens`, `weights`
and `balances` are embedded as index functions (the code only ever reads
indices 0 and 1); `swapFee`, `weights` and `balances` are the raw 18-decimal
fixed-point values the chain reports, as in the source. -/
structure PoolState where
  id : String
  address : String
  tokens : ℕ → String
  swapFee : ℝ
  weights : ℕ → ℝ
  balances : ℕ → ℝ

/-- `BatchSwapStep` from `@balancer-labs/balancer-js`, as used by
`identifyArbitrageOpp`.  Field order: poolId, assetInIndex, assetOutIndex,
amount, userData. -/
structure BatchSwapStep where
  poolId : String
  assetInIndex : ℕ
  assetOutIndex : ℕ
  amount : ℝ
  userData : String

/-- Modelled from the spec: the repository imports `fromFp` from a
`numbers` module that is not present under `src/`; per the spec's data
model the on-chain values are 18-decimal fixed point, so `fromFp` divides
by `10^18`. -/
noncomputable def fromFp (x : ℝ) : ℝ := x / 10 ^ 18

/-- Modelled from the spec: `fromFpDecimals` from the missing `numbers`
module, scaling down by the given number of decimals. -/
noncomputable def fromFpDecimals (x : ℝ) (decimals : ℕ) : ℝ := x / 10 ^ decimals

/-- Modelled from the spec: `fp` from the missing `numbers` module,
converting a normalized decimal back to 18-decimal fixed point. -/
noncomputable def fp (x : ℝ) : ℝ := x * 10 ^ 18

/-- `_exactTokenInForTokenOut` from `weightedMath.ts`:
`Bo * (1 - (Bi / (Bi + Ai*(1-f))) ^ (wi/wo))`. -/
noncomputable def _exactTokenInForTokenOut (amount : ℝ) (poolPairData : WeightedPoolPairData) : ℝ :=
  poolPairData.balanceOut *
    (1 - (poolPairData.balanceIn /
        (poolPairData.balanceIn + amount * (1 - poolPairData.swapFee))) ^
      (poolPairData.weightIn / poolPairData.weightOut))

/-- `_tokenInForExactTokenOut` from `weightedMath.ts`:
`Bi * ((-1 + (Bo/(Bo - Ao)) ^ (wo/wi)) / (-1 - f))`.  The live code divides
by `(-1) - f` (`(NEGATIVE_ONE).sub(f)`); the commented-out reference
implementation directly below it in the source divides by `1 - f`. -/
noncomputable def _tokenInForExactTokenOut (amount : ℝ) (poolPairData : WeightedPoolPairData) : ℝ :=
  poolPairData.balanceIn *
    (((-1) + (poolPairData.balanceOut / (poolPairData.balanceOut - amount)) ^
        (poolPairData.weightOut / poolPairData.weightIn)) /
      ((-1) - poolPairData.swapFee))

/-- `_spotPriceAfterSwapExactTokenInForTokenOut` from `weightedMath.ts`.
The method chain `Bo.mul(f.sub(ONE)).mul(Bi.div(Ai.plus(Bi).sub(Ai.mul(f))))
.pow((wi.plus(wo)).div(wo)).mul(wi)` applies `.pow` to the whole product
`Bo*(f-1)*(Bi/(Ai+Bi-Ai*f))`, so the embedding keeps that grouping. -/
noncomputable def _spotPriceAfterSwapExactTokenInForTokenOut
    (amount : ℝ) (poolPairData : WeightedPoolPairData) : ℝ :=
  -1 * ((poolPairData.balanceIn * poolPairData.weightOut) /
    ((poolPairData.balanceOut * (poolPairData.swapFee - 1) *
        (poolPairData.balanceIn /
          (amount + poolPairData.balanceIn - amount * poolPairData.swapFee))) ^
      ((poolPairData.weightIn + poolPairData.weightOut) / poolPairData.weightOut) *
      poolPairData.weightIn))

/-- `_spotPriceAfterSwapTokenInForExactTokenOut` from `weightedMath.ts`.
The chain `Bi.mul(Bo.div(Bo.sub(Ao))).pow((wi.plus(wo)).div(wi)).mul(wo)`
applies `.pow` to `Bi*(Bo/(Bo-Ao))`, so the embedding keeps that
grouping. -/
noncomputable def _spotPriceAfterSwapTokenInForExactTokenOut
    (amount : ℝ) (poolPairData : WeightedPoolPairData) : ℝ :=
  -1 * (((poolPairData.balanceIn * (poolPairData.balanceOut / (poolPairData.balanceOut - amount))) ^
      ((poolPairData.weightIn + poolPairData.weightOut) / poolPairData.weightIn) *
      poolPairData.weightOut) /
    (poolPairData.balanceOut * (poolPairData.swapFee - 1) * poolPairData.weightIn))

/-- `_derivativeSpotPriceAfterSwapExactTokenInForTokenOut` from
`weightedMath.ts`: `(wi+wo) / (Bo * ((Bi/(Ai+Bi-Ai*f)) ^ (wi/wo) * wi))`.
Here `.pow` is chained directly onto `Bi.div(...)`, so it applies to the
balance ratio only. -/
noncomputable def _derivativeSpotPriceAfterSwapExactTokenInForTokenOut
    (amount : ℝ) (poolPairData : WeightedPoolPairData) : ℝ :=
  (poolPairData.weightIn + poolPairData.weightOut) /
    (poolPairData.balanceOut *
      ((poolPairData.balanceIn /
          (amount + poolPairData.balanceIn - amount * poolPairData.swapFee)) ^
        (poolPairData.weightIn / poolPairData.weightOut) *
      poolPairData.weightIn))

/-- `getSpotPrice` from `arbOpp.ts`:
`((balanceOut/weightOut) / (balanceIn/weightIn)) / (1 - swapFee)`. -/
noncomputable def getSpotPrice (pairData : WeightedPoolPairData) : ℝ :=
  (pairData.balanceOut / pairData.weightOut) /
    (pairData.balanceIn / pairData.weightIn) / (1 - pairData.swapFee)

/-- `getAmountInForSpotPriceAfterSwapNoFees` from `arbOpp.ts`:
`balanceIn * ((desired / spot) ^ (wo/(wi+wo) - 1) - 1)`. -/
noncomputable def getAmountInForSpotPriceAfterSwapNoFees
    (pairData : WeightedPoolPairData) (desiredSpotPrice : ℝ) : ℝ :=
  pairData.balanceIn *
    ((desiredSpotPrice / getSpotPrice pairData) ^
        (pairData.weightOut / (pairData.weightIn + pairData.weightOut) - 1) - 1)

/-- The correction-term expression written in `getExtraAmountIn` in
`arbOpp.ts`.  In the source the expression is stranded below a bare
`return` on its own line, so automatic semicolon insertion makes the
TypeScript function return `undefined` and never evaluate it; this
definition embeds the expression itself, i.e. the value the function's
body writes out. -/
noncomputable def getExtraAmountIn (p : WeightedPoolPairData)
    (currentSpotPrice amountIn desiredSpotPrice : ℝ) : ℝ :=
  ((1 - p.swapFee) * amountIn + p.balanceIn) * (desiredSpotPrice - currentSpotPrice) /
    (currentSpotPrice *
      (p.swapFee * p.balanceIn / (amountIn + p.balanceIn) +
        (1 - p.swapFee) * (p.weightIn / p.weightOut + 1)))

/-- `getAmountInForSpotPrice` from `arbOpp.ts`.  The refinement loop is
`for (let i; i < numIterations; i++)`: `i` is declared without an
initializer, so the guard compares `undefined` with `numIterations`, which
is `false` in JavaScript, and the loop body never executes.  The function
therefore returns the initial zero-fee estimate for every value of
`numIterations`, which is what this embedding records. -/
noncomputable def getAmountInForSpotPrice (pair : WeightedPoolPairData)
    (desiredSpotPrice : ℝ) (numIterations : ℕ) : ℝ :=
  getAmountInForSpotPriceAfterSwapNoFees pair desiredSpotPrice

/-- `poolPairData` from `arbOpp.ts`: build pair data for the two chosen
token indices, converting the fixed-point pool state to normalized
decimals. -/
noncomputable def poolPairData (pool : PoolState) (inputTokenIndex outputTokenIndex : ℕ) :
    WeightedPoolPairData where
  id := pool.id
  address := pool.address
  poolType := PoolTypes.Weighted
  swapFee := fromFp pool.swapFee
  tokenIn := pool.tokens inputTokenIndex
  tokenOut := pool.tokens outputTokenIndex
  decimalsIn := 18
  decimalsOut := 18
  balanceIn := fromFpDecimals (pool.balances inputTokenIndex) 18
  balanceOut := fromFpDecimals (pool.balances outputTokenIndex) 18
  weightIn := fromFp (pool.weights inputTokenIndex)
  weightOut := fromFp (pool.weights outputTokenIndex)

/-- `NUM_ITERATIONS` constant from `identifyArbitrageOpp`. -/
def NUM_ITERATIONS : ℕ := 10

/-- JavaScript lexicographic string order on character sequences: `a < b`
iff at the first differing position `a`'s character is smaller, or `a` is a
proper prefix of `b`.  This is how JS compares two strings, hence how it
compares two `Decimal` objects (via their `valueOf()` strings). -/
def jsLtb : List Char → List Char → Bool
  | [], [] => false
  | [], _ :: _ => true
  | _ :: _, [] => false
  | a :: as, b :: bs => if a < b then true else if b < a then false else jsLtb as bs

/-- `identifyArbitrageOpp` from `arbOpp.ts`.  It starts with direction
`(assetInIndex, assetOutIndex) = (0, 1)`; if the branch condition holds it
switches to `(1, 0)` and recomputes the pair data and desired price; it
then sizes the trade with `getAmountInForSpotPrice` and emits a single
`BatchSwapStep`.  The branch condition in the source is
`desiredSpotPrice > spotPrice` on two `Decimal` objects, which JavaScript
evaluates by comparing their `valueOf()` strings lexicographically:
`desired > spot` iff `valueOf(spot)` is lexicographically smaller than
`valueOf(desired)`.  The rendering `valueOf` (decimal.js's decimal string
form of the computed value, which the real-valued idealization does not
determine) is taken as a parameter. -/
noncomputable def identifyArbitrageOpp (valueOf : ℝ → String) (marketPrices : String → ℝ)
    (poolState : PoolState) (poolTokens : List String) : List BatchSwapStep :=
  if jsLtb (valueOf (getSpotPrice (poolPairData poolState 0 1))).data
      (valueOf (marketPrices (poolPairData poolState 0 1).tokenIn /
        marketPrices (poolPairData poolState 0 1).tokenOut)).data = true then
    [⟨poolState.id, 1, 0,
      fp (getAmountInForSpotPrice (poolPairData poolState 1 0)
        (marketPrices (poolPairData poolState 1 0).tokenIn /
          marketPrices (poolPairData poolState 1 0).tokenOut) NUM_ITERATIONS),
      "0x"⟩]
  else
    [⟨poolState.id, 0, 1,
      fp (getAmountInForSpotPrice (poolPairData poolState 0 1)
        (marketPrices (poolPairData poolState 0 1).tokenIn /
          marketPrices (poolPairData poolState 0 1).tokenOut) NUM_ITERATIONS),
      "0x"⟩]

/-! ## Theorems -/

/-- C9: the solver's current spot price is
`(balanceOut/weightOut) / (balanceIn/weightIn) / (1 - swapFee)`; because of
the division by the fee complement it strictly exceeds the fee-free
balance/weight ratio whenever the fee is positive. -/
theorem c9_spot_price_fee_complement (p : WeightedPoolPairData)
    (hBi : 0 < p.balanceIn) (hBo : 0 < p.balanceOut)
    (hwi : 0 < p.weightIn) (hwo : 0 < p.weightOut) (hf1 : p.swapFee < 1) :
    getSpotPrice p =
      p.balanceOut / p.weightOut / (p.balanceIn / p.weightIn) / (1 - p.swapFee) ∧
    (0 < p.swapFee →
      p.balanceOut / p.weightOut / (p.balanceIn / p.weightIn) < getSpotPrice p) := by
  refine ⟨rfl, fun hf0 => ?_⟩
  have hr : 0 < p.balanceOut / p.weightOut / (p.balanceIn / p.weightIn) := by positivity
  have h1f : 0 < 1 - p.swapFee := by linarith
  rw [getSpotPrice, lt_div_iff h1f]
  nlinarith [mul_pos hr hf0]

/-- Concrete pair data used to witness C9. -/
noncomputable def c9pair : WeightedPoolPairData :=
  ⟨"pool", "addr", PoolTypes.Weighted, 1/10, "tin", "tout", 18, 18, 100, 100, 1/2, 1/2⟩

/-- Witness for C9 at a pool with fee 0.1. -/
theorem c9_spot_price_fee_complement_witness :
    (0 < c9pair.balanceIn ∧ 0 < c9pair.balanceOut ∧ 0 < c9pair.weightIn ∧
      0 < c9pair.weightOut ∧ c9pair.swapFee < 1) ∧
    (getSpotPrice c9pair =
        c9pair.balanceOut / c9pair.weightOut / (c9pair.balanceIn / c9pair.weightIn) /
          (1 - c9pair.swapFee) ∧
      (0 < c9pair.swapFee →
        c9pair.balanceOut / c9pair.weightOut / (c9pair.balanceIn / c9pair.weightIn) <
          getSpotPrice c9pair)) :=
  ⟨by refine ⟨?_, ?_, ?_, ?_, ?_⟩ <;> norm_num [c9pair],
    c9_spot_price_fee_complement c9pair (by norm_num [c9pair]) (by norm_num [c9pair])
      (by norm_num [c9pair]) (by norm_num [c9pair]) (by norm_num [c9pair])⟩

/-- C8: when the desired spot price equals the current spot price, the
solver's answer is (exactly) zero, in particular below the `1e-9`
tolerance: the zero-fee estimate is `balanceIn * ((s/s)^e - 1) = 0`. -/
theorem c8_idempotence (p : WeightedPoolPairData) (n : ℕ)
    (hBi : 0 < p.balanceIn) (hBo : 0 < p.balanceOut)
    (hwi : 0 < p.weightIn) (hwo : 0 < p.weightOut)
    (hf1 : p.swapFee < 1) :
    |getAmountInForSpotPrice p (getSpotPrice p) n| < 1 / 1000000000 := by
  have h1f : 0 < 1 - p.swapFee := by linarith
  have hs : 0 < getSpotPrice p :=
    div_pos (div_pos (div_pos hBo hwo) (div_pos hBi hwi)) h1f
  rw [getAmountInForSpotPrice, getAmountInForSpotPriceAfterSwapNoFees,
    div_self (ne_of_gt hs), Real.one_rpow]
  norm_num

/-- Concrete pair data used to witness C8. -/
noncomputable def c8pair : WeightedPoolPairData :=
  ⟨"pool", "addr", PoolTypes.Weighted, 3/1000, "tin", "tout", 18, 18, 1000, 1000, 3/10, 7/10⟩

/-- Witness for C8 at a 30/70 pool with fee 0.003 and 10 iterations. -/
theorem c8_idempotence_witness :
    (0 < c8pair.balanceIn ∧ 0 < c8pair.balanceOut ∧ 0 < c8pair.weightIn ∧
      0 < c8pair.weightOut ∧ c8pair.swapFee < 1) ∧
    |getAmountInForSpotPrice c8pair (getSpotPrice c8pair) 10| < 1 / 1000000000 :=
  ⟨by refine ⟨?_, ?_, ?_, ?_, ?_⟩ <;> norm_num [c8pair],
    c8_idempotence c8pair 10 (by norm_num [c8pair]) (by norm_num [c8pair])
      (by norm_num [c8pair]) (by norm_num [c8pair]) (by norm_num [c8pair])⟩

/-- C4: `_exactTokenInForTokenOut` computes
`balanceOut * (1 - (balanceIn/(balanceIn + amountIn*(1-fee)))^(weightIn/weightOut))`
and its value is strictly below `balanceOut` for every `amountIn ≥ 0`. -/
theorem c4_exactIn_formula_and_bound (p : WeightedPoolPairData) (amountIn : ℝ)
    (hBi : 0 < p.balanceIn) (hBo : 0 < p.balanceOut)
    (hwi : 0 < p.weightIn) (hwo : 0 < p.weightOut)
    (hf0 : 0 ≤ p.swapFee) (hf1 : p.swapFee < 1) (hA : 0 ≤ amountIn) :
    _exactTokenInForTokenOut amountIn p =
      p.balanceOut *
        (1 - (p.balanceIn / (p.balanceIn + amountIn * (1 - p.swapFee))) ^
          (p.weightIn / p.weightOut)) ∧
    _exactTokenInForTokenOut amountIn p < p.balanceOut := by
  refine ⟨rfl, ?_⟩
  have hden : 0 < p.balanceIn + amountIn * (1 - p.swapFee) := by nlinarith
  have hx : 0 < p.balanceIn / (p.balanceIn + amountIn * (1 - p.swapFee)) :=
    div_pos hBi hden
  have hp : 0 < (p.balanceIn / (p.balanceIn + amountIn * (1 - p.swapFee))) ^
      (p.weightIn / p.weightOut) := Real.rpow_pos_of_pos hx _
  rw [_exactTokenInForTokenOut]
  nlinarith [mul_pos hBo hp]

/-- Concrete pair data used to witness C4. -/
noncomputable def c4pair : WeightedPoolPairData :=
  ⟨"pool", "addr", PoolTypes.Weighted, 3/1000, "tin", "tout", 18, 18, 1000, 1000, 3/10, 7/10⟩

/-- Witness for C4 at `amountIn = 50`. -/
theorem c4_exactIn_formula_and_bound_witness :
    (0 < c4pair.balanceIn ∧ 0 < c4pair.balanceOut ∧ 0 < c4pair.weightIn ∧
      0 < c4pair.weightOut ∧ 0 ≤ c4pair.swapFee ∧ c4pair.swapFee < 1 ∧ (0:ℝ) ≤ 50) ∧
    (_exactTokenInForTokenOut 50 c4pair =
      c4pair.balanceOut *
        (1 - (c4pair.balanceIn / (c4pair.balanceIn + 50 * (1 - c4pair.swapFee))) ^
          (c4pair.weightIn / c4pair.weightOut)) ∧
    _exactTokenInForTokenOut 50 c4pair < c4pair.balanceOut) :=
  ⟨by refine ⟨?_, ?_, ?_, ?_, ?_, ?_, ?_⟩ <;> norm_num [c4pair],
    c4_exactIn_formula_and_bound c4pair 50 (by norm_num [c4pair]) (by norm_num [c4pair])
      (by norm_num [c4pair]) (by norm_num [c4pair]) (by norm_num [c4pair])
      (by norm_num [c4pair]) (by norm_num)⟩

/-- C10: `identifyArbitrageOpp` always returns exactly one step, carrying
the pool's id, userData `0x`, and indices `(0,1)` or `(1,0)` — only the
first two pool tokens are ever considered. -/
theorem c10_single_step_shape (valueOf : ℝ → String) (marketPrices : String → ℝ)
    (poolState : PoolState) (poolTokens : List String) :
    ∃ step : BatchSwapStep,
      identifyArbitrageOpp valueOf marketPrices poolState poolTokens = [step] ∧
      step.poolId = poolState.id ∧ step.userData = "0x" ∧
      ((step.assetInIndex = 0 ∧ step.assetOutIndex = 1) ∨
        (step.assetInIndex = 1 ∧ step.assetOutIndex = 0)) := by
  unfold identifyArbitrageOpp
  split
  · exact ⟨_, rfl, rfl, rfl, Or.inr ⟨rfl, rfl⟩⟩
  · exact ⟨_, rfl, rfl, rfl, Or.inl ⟨rfl, rfl⟩⟩

/-- Concrete pair data for C3: equal-weight pool, zero fee, balances 100. -/
noncomputable def c3pair : WeightedPoolPairData :=
  ⟨"pool", "addr", PoolTypes.Weighted, 0, "tin", "tout", 18, 18, 100, 100, 1/2, 1/2⟩

/-- C3 counterexample: at `amountOut = 200 ≥ balanceOut = 100` the function
returns the numeric value `200` — there is no failure path and no
`InvalidTradeSize` error anywhere in the code, contradicting the claim that
it fails exactly when `amountOut ≥ balanceOut`. -/
theorem c3_returns_value_beyond_balance_cex :
    _tokenInForExactTokenOut 200 c3pair = 200 := by
  have hexp : c3pair.weightOut / c3pair.weightIn = 1 := by norm_num [c3pair]
  rw [_tokenInForExactTokenOut, hexp, Real.rpow_one]
  norm_num [c3pair]

/-- C3 amended: `_tokenInForExactTokenOut` never fails — it is a total
function with no error path; on an equal-weight pair it returns the finite
numeric value `balanceIn*amountOut/((1+fee)*(amountOut-balanceOut))` even
for `amountOut > balanceOut`, instead of an `InvalidTradeSize` error. -/
theorem c3_total_beyond_balance (p : WeightedPoolPairData) (amountOut : ℝ)
    (hBi : 0 < p.balanceIn) (hBo : 0 < p.balanceOut) (hwi : 0 < p.weightIn)
    (hw : p.weightIn = p.weightOut) (hf0 : 0 ≤ p.swapFee)
    (hAo : p.balanceOut < amountOut) :
    _tokenInForExactTokenOut amountOut p =
      p.balanceIn * amountOut / ((1 + p.swapFee) * (amountOut - p.balanceOut)) := by
  have hne : p.balanceOut - amountOut ≠ 0 := ne_of_lt (by linarith)
  have hexp : p.weightOut / p.weightIn = 1 := by rw [← hw]; exact div_self (ne_of_gt hwi)
  rw [_tokenInForExactTokenOut, hexp, Real.rpow_one]
  have h1f : (-1 : ℝ) - p.swapFee ≠ 0 := ne_of_lt (by linarith)
  have h2f : (1 : ℝ) + p.swapFee ≠ 0 := ne_of_gt (by linarith)
  have h3 : amountOut - p.balanceOut ≠ 0 := ne_of_gt (by linarith)
  field_simp
  ring_nf
  tauto

/-- Witness for the amended C3 at `amountOut = 400` on `c3pair`. -/
theorem c3_total_beyond_balance_witness :
    (0 < c3pair.balanceIn ∧ 0 < c3pair.balanceOut ∧ 0 < c3pair.weightIn ∧
      c3pair.weightIn = c3pair.weightOut ∧ 0 ≤ c3pair.swapFee ∧
      c3pair.balanceOut < 400) ∧
    _tokenInForExactTokenOut 400 c3pair =
      c3pair.balanceIn * 400 / ((1 + c3pair.swapFee) * (400 - c3pair.balanceOut)) :=
  ⟨by refine ⟨?_, ?_, ?_, ?_, ?_, ?_⟩ <;> norm_num [c3pair],
    c3_total_beyond_balance c3pair 400 (by norm_num [c3pair]) (by norm_num [c3pair])
      (by norm_num [c3pair]) (by norm_num [c3pair]) (by norm_num [c3pair])
      (by norm_num [c3pair])⟩

/-- Concrete pair data for C7: `balanceOut = 0`, so the spot price is 0 and
the claim expects an `InvalidPoolState` failure. -/
noncomputable def c7pair : WeightedPoolPairData :=
  ⟨"pool", "addr", PoolTypes.Weighted, 0, "tin", "tout", 18, 18, 1000, 0, 1/2, 1/2⟩

/-- C7 counterexample: with a zero `balanceOut` the solver does not fail —
it returns the numeric value `-1000` (= `-balanceIn`): there is no
validation and no `InvalidPoolState` error anywhere in the code. -/
theorem c7_returns_value_on_zero_balance_cex :
    getAmountInForSpotPrice c7pair 1 10 = -1000 := by
  have hs : getSpotPrice c7pair = 0 := by norm_num [getSpotPrice, c7pair]
  rw [getAmountInForSpotPrice, getAmountInForSpotPriceAfterSwapNoFees, hs, div_zero,
    Real.zero_rpow (by norm_num [c7pair])]
  norm_num [c7pair]

/-- C7 amended: `getAmountInForSpotPrice` performs no pool-state validation
and never fails; on any pair with `balanceOut = 0` (undefined spot price per
the spec) it returns the numeric value `-balanceIn` for every desired price
and every iteration count. -/
theorem c7_no_validation (p : WeightedPoolPairData) (d : ℝ) (n : ℕ)
    (hBo : p.balanceOut = 0) (hBi : 0 < p.balanceIn) (hwi : 0 < p.weightIn)
    (hwo : 0 < p.weightOut) (hf1 : p.swapFee < 1) (hd : 0 < d) :
    getAmountInForSpotPrice p d n = -p.balanceIn := by
  have hs : getSpotPrice p = 0 := by rw [getSpotPrice, hBo]; simp
  have h1 : p.weightOut / (p.weightIn + p.weightOut) < 1 := by
    rw [div_lt_one (by linarith)]; linarith
  have he : p.weightOut / (p.weightIn + p.weightOut) - 1 ≠ 0 :=
    sub_ne_zero.mpr (ne_of_lt h1)
  rw [getAmountInForSpotPrice, getAmountInForSpotPriceAfterSwapNoFees, hs, div_zero,
    Real.zero_rpow he]
  ring

/-- Second concrete pair for witnessing the amended C7. -/
noncomputable def c7bpair : WeightedPoolPairData :=
  ⟨"pool", "addr", PoolTypes.Weighted, 1/100, "tin", "tout", 18, 18, 500, 0, 3/10, 7/10⟩

/-- Witness for the amended C7. -/
theorem c7_no_validation_witness :
    (c7bpair.balanceOut = 0 ∧ 0 < c7bpair.balanceIn ∧ 0 < c7bpair.weightIn ∧
      0 < c7bpair.weightOut ∧ c7bpair.swapFee < 1 ∧ (0:ℝ) < 2) ∧
    getAmountInForSpotPrice c7bpair 2 3 = -c7bpair.balanceIn :=
  ⟨by refine ⟨?_, ?_, ?_, ?_, ?_, ?_⟩ <;> norm_num [c7bpair],
    c7_no_validation c7bpair 2 3 (by norm_num [c7bpair]) (by norm_num [c7bpair])
      (by norm_num [c7bpair]) (by norm_num [c7bpair]) (by norm_num [c7bpair])
      (by norm_num)⟩

/-- Concrete pair data for C2: equal weights, zero fee, balances 100. -/
noncomputable def c2pair : WeightedPoolPairData :=
  ⟨"pool", "addr", PoolTypes.Weighted, 0, "tin", "tout", 18, 18, 100, 100, 1/2, 1/2⟩

/-- C2: the round trip fails on the code.  `_tokenInForExactTokenOut`
divides by `-1 - f` instead of `1 - f` (the commented-out reference code
divides by `1 - f`), so for `amountOut = 25` it returns `-100/3`, and
feeding that back into `_exactTokenInForTokenOut` yields `-50`, not `25`. -/
theorem c2_roundtrip_fails_eval :
    _tokenInForExactTokenOut 25 c2pair = -100/3 ∧
    _exactTokenInForTokenOut (_tokenInForExactTokenOut 25 c2pair) c2pair = -50 := by
  have h1 : _tokenInForExactTokenOut 25 c2pair = -100/3 := by
    have hexp : c2pair.weightOut / c2pair.weightIn = 1 := by norm_num [c2pair]
    rw [_tokenInForExactTokenOut, hexp, Real.rpow_one]
    norm_num [c2pair]
  refine ⟨h1, ?_⟩
  rw [h1]
  have hexp2 : c2pair.weightIn / c2pair.weightOut = 1 := by norm_num [c2pair]
  rw [_exactTokenInForTokenOut, hexp2, Real.rpow_one]
  norm_num [c2pair]

/-- Concrete pair data for C1: equal weights, fee `0.5`, balances 1000; the
desired spot price `9/8` is half the current spot price `2` scaled by
`(3/4)^2`, chosen so every power evaluates to a rational. -/
noncomputable def c1pair : WeightedPoolPairData :=
  ⟨"pool", "addr", PoolTypes.Weighted, 1/2, "tin", "tout", 18, 18, 1000, 1000, 1/2, 1/2⟩

/-- C1: the refinement loop never runs.  For every iteration count the
solver returns the unrefined zero-fee estimate (here `1000/3`), even though
the correction term `extraAmountIn` that §4.3 requires to be added in the
first iteration is nonzero at this input: the loop variable of
`for (let i; i < numIterations; i++)` is never initialized, so the guard is
false and the body is skipped (and `getExtraAmountIn` itself returns
`undefined` because of the stranded `return`). -/
theorem c1_solver_skips_refinement :
    (∀ n : ℕ, getAmountInForSpotPrice c1pair (9/8) n =
        getAmountInForSpotPriceAfterSwapNoFees c1pair (9/8)) ∧
    getAmountInForSpotPriceAfterSwapNoFees c1pair (9/8) = 1000/3 ∧
    getExtraAmountIn c1pair
        (_spotPriceAfterSwapTokenInForExactTokenOut (1000/3) c1pair) (1000/3) (9/8) ≠ 0 := by
  have hx : ((9:ℝ)/16) ^ (-(1/2) : ℝ) = 4/3 := by
    have h94 : ((9:ℝ)/16) = ((3:ℝ)/4) ^ (2:ℕ) := by norm_num
    rw [h94, ← Real.rpow_natCast ((3:ℝ)/4) 2,
      ← Real.rpow_mul (by norm_num : (0:ℝ) ≤ 3/4)]
    have h2 : ((2:ℕ):ℝ) * (-(1/2)) = -1 := by push_cast; ring
    rw [h2, Real.rpow_neg_one]
    norm_num
  have hs : getSpotPrice c1pair = 2 := by norm_num [getSpotPrice, c1pair]
  have hest : getAmountInForSpotPriceAfterSwapNoFees c1pair (9/8) = 1000/3 := by
    have hexp : c1pair.weightOut / (c1pair.weightIn + c1pair.weightOut) - 1 = -(1/2) := by
      norm_num [c1pair]
    rw [getAmountInForSpotPriceAfterSwapNoFees, hs, hexp]
    have h916 : (9:ℝ)/8/2 = 9/16 := by norm_num
    rw [h916, hx]
    norm_num [c1pair]
  refine ⟨fun n => rfl, hest, ?_⟩
  have hsa : _spotPriceAfterSwapTokenInForExactTokenOut (1000/3) c1pair = 4500 := by
    have hE : (c1pair.weightIn + c1pair.weightOut) / c1pair.weightIn = (2:ℝ) := by
      norm_num [c1pair]
    have hbase : c1pair.balanceIn * (c1pair.balanceOut / (c1pair.balanceOut - 1000/3)) =
        (1500:ℝ) := by norm_num [c1pair]
    rw [_spotPriceAfterSwapTokenInForExactTokenOut, hE, hbase, Real.rpow_two]
    norm_num [c1pair]
  rw [hsa]
  norm_num [getExtraAmountIn, c1pair]

/-- Concrete pair data for C5: equal weights, zero fee, balances 100. -/
noncomputable def c5pair : WeightedPoolPairData :=
  ⟨"pool", "addr", PoolTypes.Weighted, 0, "tin", "tout", 18, 18, 100, 100, 1/2, 1/2⟩

/-- Pair data for C5 with weights in ratio 2:1, so the spot-price
function's exponent `(wi+wo)/wo` is the integer 3 and the negative-base
power is well defined. -/
noncomputable def c5bpair : WeightedPoolPairData :=
  ⟨"pool", "addr", PoolTypes.Weighted, 0, "tin", "tout", 18, 18, 100, 100, 1/2, 1/4⟩

/-- C5 counterexample: on `c5bpair` the post-swap spot price at
`amountIn = 100` is strictly larger than at `amountIn = 0` — the function
is increasing, not strictly decreasing — and at `amountIn = 0` the
derivative function evaluates to `1/50 > 0` on `c5pair`, carrying no
negative leading sign. -/
theorem c5_sign_conventions_cex :
    _spotPriceAfterSwapExactTokenInForTokenOut 0 c5bpair <
      _spotPriceAfterSwapExactTokenInForTokenOut 100 c5bpair ∧
    _derivativeSpotPriceAfterSwapExactTokenInForTokenOut 0 c5pair = 1/50 := by
  constructor
  · have hE : (c5bpair.weightIn + c5bpair.weightOut) / c5bpair.weightOut = (3:ℝ) := by
      norm_num [c5bpair]
    have h3 : ((3:ℝ)) = ((3:ℕ):ℝ) := by norm_num
    rw [_spotPriceAfterSwapExactTokenInForTokenOut,
      _spotPriceAfterSwapExactTokenInForTokenOut, hE, h3, Real.rpow_natCast,
      Real.rpow_natCast]
    norm_num [c5bpair]
  · rw [_derivativeSpotPriceAfterSwapExactTokenInForTokenOut]
    have hb : c5pair.balanceIn / (0 + c5pair.balanceIn - 0 * c5pair.swapFee) = 1 := by
      norm_num [c5pair]
    rw [hb, Real.one_rpow]
    norm_num [c5pair]

/-- C5 amended: for positive pair data and fee in `[0,1)`,
`_exactTokenInForTokenOut` is strictly increasing in `amountIn` on
`amountIn ≥ 0`; the derivative function is strictly positive (not
negative); and on equal-weight pairs — where the exponent `(wi+wo)/wo`
equals 2, so the negative base produced by the misgrouped `.pow` chain is
still a real square — `_spotPriceAfterSwapExactTokenInForTokenOut` is
strictly decreasing in `amountIn` (its values are negative). -/
theorem c5_monotonicity_amended (p : WeightedPoolPairData) (a b : ℝ)
    (hBi : 0 < p.balanceIn) (hBo : 0 < p.balanceOut)
    (hwi : 0 < p.weightIn) (hwo : 0 < p.weightOut)
    (hf0 : 0 ≤ p.swapFee) (hf1 : p.swapFee < 1)
    (ha : 0 ≤ a) (hab : a < b) :
    _exactTokenInForTokenOut a p < _exactTokenInForTokenOut b p ∧
    0 < _derivativeSpotPriceAfterSwapExactTokenInForTokenOut a p ∧
    (p.weightIn = p.weightOut →
      _spotPriceAfterSwapExactTokenInForTokenOut b p <
        _spotPriceAfterSwapExactTokenInForTokenOut a p) := by
  have hb0 : 0 ≤ b := le_of_lt (lt_of_le_of_lt ha hab)
  refine ⟨?_, ?_, ?_⟩
  · have hdenA : 0 < p.balanceIn + a * (1 - p.swapFee) := by nlinarith
    have hdenB : 0 < p.balanceIn + b * (1 - p.swapFee) := by nlinarith
    have hlt : p.balanceIn + a * (1 - p.swapFee) < p.balanceIn + b * (1 - p.swapFee) := by
      nlinarith
    have hxb : 0 < p.balanceIn / (p.balanceIn + b * (1 - p.swapFee)) := div_pos hBi hdenB
    have hxba : p.balanceIn / (p.balanceIn + b * (1 - p.swapFee)) <
        p.balanceIn / (p.balanceIn + a * (1 - p.swapFee)) :=
      div_lt_div_of_pos_left hBi hdenA hlt
    have hrp : (p.balanceIn / (p.balanceIn + b * (1 - p.swapFee))) ^
          (p.weightIn / p.weightOut) <
        (p.balanceIn / (p.balanceIn + a * (1 - p.swapFee))) ^
          (p.weightIn / p.weightOut) :=
      Real.rpow_lt_rpow (le_of_lt hxb) hxba (div_pos hwi hwo)
    rw [_exactTokenInForTokenOut, _exactTokenInForTokenOut]
    exact mul_lt_mul_of_pos_left (by linarith) hBo
  · have hdena : 0 < a + p.balanceIn - a * p.swapFee := by nlinarith
    have hxa : 0 < p.balanceIn / (a + p.balanceIn - a * p.swapFee) := div_pos hBi hdena
    have hra : 0 < (p.balanceIn / (a + p.balanceIn - a * p.swapFee)) ^
        (p.weightIn / p.weightOut) := Real.rpow_pos_of_pos hxa _
    rw [_derivativeSpotPriceAfterSwapExactTokenInForTokenOut]
    exact div_pos (by linarith) (mul_pos hBo (mul_pos hra hwi))
  · intro hw
    have hE : (p.weightIn + p.weightOut) / p.weightOut = (2:ℝ) := by
      rw [hw, div_eq_iff (ne_of_gt hwo)]; ring
    have hda : 0 < a + p.balanceIn - a * p.swapFee := by nlinarith
    have hdb : 0 < b + p.balanceIn - b * p.swapFee := by nlinarith
    have hxa : 0 < p.balanceIn / (a + p.balanceIn - a * p.swapFee) := div_pos hBi hda
    have hxb : 0 < p.balanceIn / (b + p.balanceIn - b * p.swapFee) := div_pos hBi hdb
    have hxblt : p.balanceIn / (b + p.balanceIn - b * p.swapFee) <
        p.balanceIn / (a + p.balanceIn - a * p.swapFee) :=
      div_lt_div_of_pos_left hBi hda (by nlinarith)
    have hc : p.balanceOut * (p.swapFee - 1) < 0 :=
      mul_neg_of_pos_of_neg hBo (by linarith)
    have hc2 : 0 < (p.balanceOut * (p.swapFee - 1)) ^ 2 :=
      pow_two_pos_of_ne_zero (ne_of_lt hc)
    have hx2 : (p.balanceIn / (b + p.balanceIn - b * p.swapFee)) ^ 2 <
        (p.balanceIn / (a + p.balanceIn - a * p.swapFee)) ^ 2 := by nlinarith
    have h1 : (p.balanceOut * (p.swapFee - 1) *
          (p.balanceIn / (b + p.balanceIn - b * p.swapFee))) ^ 2 =
        (p.balanceOut * (p.swapFee - 1)) ^ 2 *
          (p.balanceIn / (b + p.balanceIn - b * p.swapFee)) ^ 2 := by ring
    have h2 : (p.balanceOut * (p.swapFee - 1) *
          (p.balanceIn / (a + p.balanceIn - a * p.swapFee))) ^ 2 =
        (p.balanceOut * (p.swapFee - 1)) ^ 2 *
          (p.balanceIn / (a + p.balanceIn - a * p.swapFee)) ^ 2 := by ring
    have hDb : 0 < (p.balanceOut * (p.swapFee - 1) *
          (p.balanceIn / (b + p.balanceIn - b * p.swapFee))) ^ 2 * p.weightIn := by
      rw [h1]
      exact mul_pos (mul_pos hc2 (pow_pos hxb 2)) hwi
    have hDlt : (p.balanceOut * (p.swapFee - 1) *
          (p.balanceIn / (b + p.balanceIn - b * p.swapFee))) ^ 2 * p.weightIn <
        (p.balanceOut * (p.swapFee - 1) *
          (p.balanceIn / (a + p.balanceIn - a * p.swapFee))) ^ 2 * p.weightIn := by
      rw [h1, h2]
      nlinarith [mul_pos hc2 hwi]
    have hK : 0 < p.balanceIn * p.weightOut := mul_pos hBi hwo
    have hmain := div_lt_div_of_pos_left hK hDb hDlt
    rw [_spotPriceAfterSwapExactTokenInForTokenOut,
      _spotPriceAfterSwapExactTokenInForTokenOut, hE, Real.rpow_two, Real.rpow_two]
    linarith [hmain]

/-- Witness for the amended C5 at `a = 0`, `b = 100` on `c5pair`. -/
theorem c5_monotonicity_amended_witness :
    (0 < c5pair.balanceIn ∧ 0 < c5pair.balanceOut ∧ 0 < c5pair.weightIn ∧
      0 < c5pair.weightOut ∧ 0 ≤ c5pair.swapFee ∧ c5pair.swapFee < 1 ∧
      (0:ℝ) ≤ 0 ∧ (0:ℝ) < 100) ∧
    (_exactTokenInForTokenOut 0 c5pair < _exactTokenInForTokenOut 100 c5pair ∧
      0 < _derivativeSpotPriceAfterSwapExactTokenInForTokenOut 0 c5pair ∧
      (c5pair.weightIn = c5pair.weightOut →
        _spotPriceAfterSwapExactTokenInForTokenOut 100 c5pair <
          _spotPriceAfterSwapExactTokenInForTokenOut 0 c5pair)) :=
  ⟨by refine ⟨?_, ?_, ?_, ?_, ?_, ?_, ?_, ?_⟩ <;> norm_num [c5pair],
    c5_monotonicity_amended c5pair 0 100 (by norm_num [c5pair]) (by norm_num [c5pair])
      (by norm_num [c5pair]) (by norm_num [c5pair]) (by norm_num [c5pair])
      (by norm_num [c5pair]) (by norm_num) (by norm_num)⟩

/-- Direction key: if the reference ratio for the default direction
strictly exceeds the pool spot price `B/A/c`, then the reversed ratio is at
most the reversed spot price `A/B/c` (using `c = 1 - fee ∈ (0,1]`). -/
theorem reversed_ratio_le_reversed_spot (A B c p0 p1 : ℝ) (hA : 0 < A) (hB : 0 < B)
    (hc : 0 < c) (hc1 : c ≤ 1) (hp0 : 0 < p0) (hp1 : 0 < p1)
    (h : B / A / c < p0 / p1) : p1 / p0 ≤ A / B / c := by
  rw [div_div] at h ⊢
  rw [div_lt_div_iff (by positivity) hp1] at h
  rw [div_le_div_iff hp0 (by positivity)]
  nlinarith [mul_nonneg (mul_nonneg hp1.le hB.le) (sub_nonneg.mpr hc1),
    mul_nonneg (mul_nonneg hp0.le hA.le) (sub_nonneg.mpr hc1)]

open Classical in
/-- Integer fragment of decimal.js rendering: decimal.js's `valueOf()`
renders an integer-valued Decimal as its plain decimal numeral.  This
captures exactly that fragment (every value compared in the counterexample
below is an integer); non-integer values map to the empty string and are
never rendered by the theorems that use this function. -/
noncomputable def intValueOf (x : ℝ) : String :=
  if h : ∃ n : ℕ, x = (n : ℝ) then Nat.repr (Classical.choose h) else ""

/-- `intValueOf` renders a natural-number value as its numeral. -/
theorem intValueOf_natCast (n : ℕ) : intValueOf (n : ℝ) = Nat.repr n := by
  rw [intValueOf, dif_pos ⟨n, rfl⟩]
  congr 1
  have h := Classical.choose_spec (⟨n, rfl⟩ : ∃ m : ℕ, (n : ℝ) = (m : ℝ))
  exact_mod_cast h.symm

/-- Pool for the C6 counterexample: balances `[100, 900]` and weights
`[0.5, 0.5]` in 18-decimal fixed point, zero swap fee, so the spot price of
the default direction is exactly 9. -/
noncomputable def c6xpool : PoolState :=
  ⟨"pool6x", "addr6x", fun i => if i = 0 then "t0" else "t1", 0,
    fun _ => 5 * 10 ^ 17, fun i => if i = 0 then 100 * 10 ^ 18 else 900 * 10 ^ 18⟩

/-- Market prices for the C6 counterexample: the reference ratio of the
default direction is exactly 10. -/
noncomputable def c6xprices : String → ℝ :=
  fun t => if t = "t0" then 10 else if t = "t1" then 1 else 0

/-- C6 counterexample: the reference ratio `10` strictly exceeds the pool
spot price `9`, so the claim requires the indices to be swapped to `(1,0)`;
but the program compares the `Decimal`s' `valueOf()` strings
lexicographically, and `"9" < "10"` is false (`'9' > '1'`), so it keeps
direction `(0,1)` — with desired `10` above spot `9` in the traded
direction, it trades away from the reference. -/
theorem c6_lexicographic_direction_cex :
    c6xprices (c6xpool.tokens 0) / c6xprices (c6xpool.tokens 1) >
      getSpotPrice (poolPairData c6xpool 0 1) ∧
    identifyArbitrageOpp intValueOf c6xprices c6xpool [] =
      [⟨c6xpool.id, 0, 1,
        fp (getAmountInForSpotPrice (poolPairData c6xpool 0 1)
          (c6xprices (c6xpool.tokens 0) / c6xprices (c6xpool.tokens 1)) NUM_ITERATIONS),
        "0x"⟩] := by
  have ht0 : c6xpool.tokens 0 = "t0" := rfl
  have ht1 : c6xpool.tokens 1 = "t1" := rfl
  have hq0 : c6xprices (c6xpool.tokens 0) = 10 := by rw [ht0]; rfl
  have hq1 : c6xprices (c6xpool.tokens 1) = 1 := by rw [ht1]; rfl
  have hd : c6xprices (c6xpool.tokens 0) / c6xprices (c6xpool.tokens 1) = 10 := by
    rw [hq0, hq1]; norm_num
  have hspot : getSpotPrice (poolPairData c6xpool 0 1) = 9 := by
    rw [getSpotPrice]
    norm_num [poolPairData, fromFp, fromFpDecimals, c6xpool]
  constructor
  · rw [hd, hspot]; norm_num
  · have h9 : intValueOf (getSpotPrice (poolPairData c6xpool 0 1)) = "9" := by
      rw [hspot, show (9:ℝ) = ((9:ℕ):ℝ) by norm_num, intValueOf_natCast]
      rfl
    have h10 : intValueOf (c6xprices (c6xpool.tokens 0) / c6xprices (c6xpool.tokens 1)) =
        "10" := by
      rw [hd, show (10:ℝ) = ((10:ℕ):ℝ) by norm_num, intValueOf_natCast]
      rfl
    have hcnot : ¬ (jsLtb (intValueOf (getSpotPrice (poolPairData c6xpool 0 1))).data
        (intValueOf (c6xprices (poolPairData c6xpool 0 1).tokenIn /
          c6xprices (poolPairData c6xpool 0 1).tokenOut)).data = true) := by
      show ¬ (jsLtb (intValueOf (getSpotPrice (poolPairData c6xpool 0 1))).data
        (intValueOf (c6xprices (c6xpool.tokens 0) / c6xprices (c6xpool.tokens 1))).data = true)
      rw [h9, h10]
      decide
    rw [identifyArbitrageOpp, if_neg hcnot]
    rfl

/-- C6 amended: on inputs where the lexicographic comparison of the
rendered `valueOf()` strings agrees with the numeric order (hypothesis
`hagree` — this holds in particular in the spec's P5 scenario, but fails
e.g. at spot `"9"` versus ratio `"10"`), `identifyArbitrageOpp` trades only
toward the reference price: it swaps the indices to `(1,0)` and recomputes
pair data and desired price exactly when the default-direction reference
ratio numerically exceeds the pool's spot price, otherwise keeps `(0,1)`,
and in both cases the desired price of the chosen direction is at most that
direction's pool spot price. -/
theorem c6_direction_correction_amended (valueOf : ℝ → String)
    (marketPrices : String → ℝ) (poolState : PoolState) (poolTokens : List String)
    (hb0 : 0 < poolState.balances 0) (hb1 : 0 < poolState.balances 1)
    (hw0 : 0 < poolState.weights 0) (hw1 : 0 < poolState.weights 1)
    (hf0 : 0 ≤ poolState.swapFee) (hf1 : poolState.swapFee < 10 ^ 18)
    (hp0 : 0 < marketPrices (poolState.tokens 0))
    (hp1 : 0 < marketPrices (poolState.tokens 1))
    (hagree : (jsLtb (valueOf (getSpotPrice (poolPairData poolState 0 1))).data
        (valueOf (marketPrices (poolState.tokens 0) /
          marketPrices (poolState.tokens 1))).data = true) ↔
      getSpotPrice (poolPairData poolState 0 1) <
        marketPrices (poolState.tokens 0) / marketPrices (poolState.tokens 1)) :
    (marketPrices (poolState.tokens 0) / marketPrices (poolState.tokens 1) >
        getSpotPrice (poolPairData poolState 0 1) →
      identifyArbitrageOpp valueOf marketPrices poolState poolTokens =
        [⟨poolState.id, 1, 0,
          fp (getAmountInForSpotPrice (poolPairData poolState 1 0)
            (marketPrices (poolState.tokens 1) / marketPrices (poolState.tokens 0))
            NUM_ITERATIONS), "0x"⟩] ∧
      marketPrices (poolState.tokens 1) / marketPrices (poolState.tokens 0) ≤
        getSpotPrice (poolPairData poolState 1 0)) ∧
    (¬ marketPrices (poolState.tokens 0) / marketPrices (poolState.tokens 1) >
        getSpotPrice (poolPairData poolState 0 1) →
      identifyArbitrageOpp valueOf marketPrices poolState poolTokens =
        [⟨poolState.id, 0, 1,
          fp (getAmountInForSpotPrice (poolPairData poolState 0 1)
            (marketPrices (poolState.tokens 0) / marketPrices (poolState.tokens 1))
            NUM_ITERATIONS), "0x"⟩] ∧
      marketPrices (poolState.tokens 0) / marketPrices (poolState.tokens 1) ≤
        getSpotPrice (poolPairData poolState 0 1)) := by
  have hA : 0 < fromFpDecimals (poolState.balances 0) 18 / fromFp (poolState.weights 0) := by
    rw [fromFpDecimals, fromFp]
    exact div_pos (div_pos hb0 (by positivity)) (div_pos hw0 (by positivity))
  have hB : 0 < fromFpDecimals (poolState.balances 1) 18 / fromFp (poolState.weights 1) := by
    rw [fromFpDecimals, fromFp]
    exact div_pos (div_pos hb1 (by positivity)) (div_pos hw1 (by positivity))
  have hfp1 : fromFp poolState.swapFee < 1 := by
    rw [fromFp, div_lt_one (by positivity)]
    exact hf1
  have hfp0 : 0 ≤ fromFp poolState.swapFee := by
    rw [fromFp]; positivity
  have hcpos : 0 < 1 - fromFp poolState.swapFee := by linarith
  have hcle : 1 - fromFp poolState.swapFee ≤ 1 := by linarith
  constructor
  · intro h
    have hcond : jsLtb (valueOf (getSpotPrice (poolPairData poolState 0 1))).data
        (valueOf (marketPrices (poolPairData poolState 0 1).tokenIn /
          marketPrices (poolPairData poolState 0 1).tokenOut)).data = true :=
      hagree.mpr h
    refine ⟨?_, ?_⟩
    · rw [identifyArbitrageOpp, if_pos hcond]
      rfl
    · have h' : fromFpDecimals (poolState.balances 1) 18 / fromFp (poolState.weights 1) /
          (fromFpDecimals (poolState.balances 0) 18 / fromFp (poolState.weights 0)) /
          (1 - fromFp poolState.swapFee) <
          marketPrices (poolState.tokens 0) / marketPrices (poolState.tokens 1) := by
        simpa only [getSpotPrice, poolPairData, gt_iff_lt] using h
      have hgoal := reversed_ratio_le_reversed_spot _ _ _ _ _ hA hB hcpos hcle hp0 hp1 h'
      simpa only [getSpotPrice, poolPairData] using hgoal
  · intro h
    have hcond : ¬ (jsLtb (valueOf (getSpotPrice (poolPairData poolState 0 1))).data
        (valueOf (marketPrices (poolPairData poolState 0 1).tokenIn /
          marketPrices (poolPairData poolState 0 1).tokenOut)).data = true) :=
      fun hs => h (hagree.mp hs)
    refine ⟨?_, not_lt.mp h⟩
    rw [identifyArbitrageOpp, if_neg hcond]
    rfl

/-- P5 pool of the spec: balances `[1000, 1000]` and weights `[0.5, 0.5]`
in 18-decimal fixed point, zero swap fee. -/
noncomputable def c6pool : PoolState :=
  ⟨"pool6", "addr6", fun i => if i = 0 then "t0" else "t1", 0,
    fun _ => 5 * 10 ^ 17, fun _ => 1000 * 10 ^ 18⟩

/-- P5 reference prices: token 1 is 10% more valuable than token 0. -/
noncomputable def c6prices : String → ℝ :=
  fun t => if t = "t0" then 1 else if t = "t1" then 11 / 10 else 0

/-- Rendering for the amended C6 witness: the reference ratio is the JS
number division `1 / 1.1`, whose `toString()` — and hence the resulting
Decimal's `valueOf()` — is `"0.9090909090909091"`; integer values render
as their numerals. -/
noncomputable def p5ValueOf (x : ℝ) : String :=
  if x = 10 / 11 then "0.9090909090909091" else intValueOf x

/-- Witness for the amended C6 on the spec's P5 scenario: the string order
agrees with the numeric order here (`"1" < "0.9090909090909091"` and
`1 < 10/11` are both false), the pool overprices token 0, and the emitted
trade keeps direction `(0,1)` and sells token 0. -/
theorem c6_direction_correction_amended_witness :
    (0 < c6pool.balances 0 ∧ 0 < c6pool.balances 1 ∧ 0 < c6pool.weights 0 ∧
      0 < c6pool.weights 1 ∧ 0 ≤ c6pool.swapFee ∧ c6pool.swapFee < 10 ^ 18 ∧
      0 < c6prices (c6pool.tokens 0) ∧ 0 < c6prices (c6pool.tokens 1) ∧
      ((jsLtb (p5ValueOf (getSpotPrice (poolPairData c6pool 0 1))).data
          (p5ValueOf (c6prices (c6pool.tokens 0) / c6prices (c6pool.tokens 1))).data = true) ↔
        getSpotPrice (poolPairData c6pool 0 1) <
          c6prices (c6pool.tokens 0) / c6prices (c6pool.tokens 1))) ∧
    identifyArbitrageOpp p5ValueOf c6prices c6pool [] =
      [⟨c6pool.id, 0, 1,
        fp (getAmountInForSpotPrice (poolPairData c6pool 0 1)
          (c6prices (c6pool.tokens 0) / c6prices (c6pool.tokens 1)) NUM_ITERATIONS),
        "0x"⟩] := by
  have ht0 : c6pool.tokens 0 = "t0" := rfl
  have ht1 : c6pool.tokens 1 = "t1" := rfl
  have hq0 : c6prices (c6pool.tokens 0) = 1 := by rw [ht0]; rfl
  have hq1 : c6prices (c6pool.tokens 1) = 11 / 10 := by rw [ht1]; rfl
  have hdv : c6prices (c6pool.tokens 0) / c6prices (c6pool.tokens 1) = 10 / 11 := by
    rw [hq0, hq1]; norm_num
  have hspot : getSpotPrice (poolPairData c6pool 0 1) = 1 := by
    rw [getSpotPrice]
    norm_num [poolPairData, fromFp, fromFpDecimals, c6pool]
  have hv1 : p5ValueOf (getSpotPrice (poolPairData c6pool 0 1)) = "1" := by
    rw [hspot, p5ValueOf, if_neg (by norm_num : ¬ (1:ℝ) = 10 / 11),
      show (1:ℝ) = ((1:ℕ):ℝ) by norm_num, intValueOf_natCast]
    rfl
  have hv2 : p5ValueOf (c6prices (c6pool.tokens 0) / c6prices (c6pool.tokens 1)) =
      "0.9090909090909091" := by
    rw [hdv, p5ValueOf, if_pos rfl]
  have hagree : (jsLtb (p5ValueOf (getSpotPrice (poolPairData c6pool 0 1))).data
      (p5ValueOf (c6prices (c6pool.tokens 0) / c6prices (c6pool.tokens 1))).data = true) ↔
      getSpotPrice (poolPairData c6pool 0 1) <
        c6prices (c6pool.tokens 0) / c6prices (c6pool.tokens 1) := by
    rw [hv1, hv2, hspot, hdv]
    exact iff_of_false (by decide) (by norm_num)
  have hneg : ¬ c6prices (c6pool.tokens 0) / c6prices (c6pool.tokens 1) >
      getSpotPrice (poolPairData c6pool 0 1) := by
    rw [hq0, hq1, hspot]
    norm_num
  refine ⟨⟨?_, ?_, ?_, ?_, ?_, ?_, ?_, ?_, hagree⟩, ?_⟩
  · norm_num [c6pool]
  · norm_num [c6pool]
  · norm_num [c6pool]
  · norm_num [c6pool]
  · norm_num [c6pool]
  · norm_num [c6pool]
  · rw [hq0]; norm_num
  · rw [hq1]; norm_num
  · exact ((c6_direction_correction_amended p5ValueOf c6prices c6pool []
      (by norm_num [c6pool]) (by norm_num [c6pool]) (by norm_num [c6pool])
      (by norm_num [c6pool]) (by norm_num [c6pool]) (by norm_num [c6pool])
      (by rw [hq0]; norm_num) (by rw [hq1]; norm_num) hagree).2 hneg).1
